import Mathlib

set_option maxHeartbeats 1000000

/-
Verification development for the job-application-email-bot repository.

The repository contains two near-duplicate implementations of the same
design: a simplified variant (`send_bulk_intern_emails.js`) and an
extended variant (the script embedded in the README).  Both are embedded
shallowly below, in the namespaces `Simple` and `Ext` respectively.

Modelling conventions:
- A JS string-valued property that may be `undefined` is `Option String`
  (`none` = absent/undefined).
- External collaborators are parameters: the transport outcome of the
  i-th send attempt is `outcome i : Except String Unit` (the `String` is
  the thrown error message), the clock is `ts i : String`
  (`new Date().toISOString()` at iteration `i`), and the existence of the
  CV file on disk is `cvEx : Bool`.
- The observable side effects of a run are collected in an event trace:
  `transportCall opts` for each `transporter.sendMail(opts)` call,
  `persist log` for each write of the log file, and `sleepMs n` for each
  suspension.  Console output is not modelled except where a claim is
  about reported data (the final summary).
-/

namespace EmailBot

/-- A raw contact record as read from the JSON input file.  Each field is
`Option String`: `none` models an absent (undefined) JS property. -/
structure RawContact where
  email : Option String := none
  EntrepriseContactEmail : Option String := none
  companyName : Option String := none
  EntrepriseName : Option String := none
  founderName : Option String := none
  EntrepriseContactName : Option String := none
deriving Repr, DecidableEq

/-! Several core `String` functions (`toLower`, `startsWith`, `trim`,
`contains`, `dropWhile`, `splitOn`) recurse on byte positions and do not
reduce definitionally in the kernel, so the embedding uses the
character-list view `String.data` with structurally recursive helpers of
the same semantics (all inputs here are ASCII). -/

def lowerChars (s : String) : List Char := s.data.map Char.toLower

/-- `isPrefixList pat cs`: does `cs` start with `pat`? -/
def isPrefixList : List Char → List Char → Bool
  | [], _ => true
  | _ :: _, [] => false
  | p :: ps, c :: cs => (p == c) && isPrefixList ps cs

/-- `s.startsWith p`. -/
def strStartsWith (s p : String) : Bool := isPrefixList p.data s.data

/-- `s.trim` / JS `String.prototype.trim` (ASCII whitespace). -/
def jsTrim (s : String) : String :=
  String.mk (((s.data.dropWhile Char.isWhitespace).reverse.dropWhile
    Char.isWhitespace).reverse)

/-- `s.includes(c)` for a single character. -/
def containsChar (s : String) (c : Char) : Bool := s.data.contains c

/-- Drop the first `n` characters. -/
def dropStr (s : String) (n : Nat) : String := String.mk (s.data.drop n)

/-- JS truthiness of a string-valued field (undefined and the empty
string are falsy). -/
def truthy : Option String → Bool
  | none => false
  | some s => !(s == "")

/-- JS `a || b` on string-valued fields. -/
def jsOr : Option String → Option String → Option String
  | none, b => b
  | some s, b => if s == "" then b else some s

/-- The honorific alternatives of the regex
`^(Mr\.|Mrs\.|Ms\.|Dr\.|M\.|Mme\.)\s*`, in source order.  The six
alternatives are pairwise non-overlapping as string prefixes, so the
regex engine's ordered choice coincides with "the one that matches". -/
def honorifics : List String := ["Mr.", "Mrs.", "Ms.", "Dr.", "M.", "Mme."]

/-- Name cleaning shared by both variants:
`founderName.replace(regex, '').trim()` — strip one leading
case-insensitive honorific together with the whitespace matched by the
trailing `\s*`, then trim. -/
def cleanName (s : String) : String :=
  match honorifics.find? (fun h => isPrefixList (lowerChars h) (lowerChars s)) with
  | some h => jsTrim (String.mk ((s.data.drop h.length).dropWhile Char.isWhitespace))
  | none => jsTrim s

/-- Process environment: the two credential variables. -/
structure Env where
  user : Option String := none
  pass : Option String := none
deriving Repr, DecidableEq

/-- The value returned by `nodemailer.createTransport` (its configured
options; behaviour of the actual SMTP transport stays external). -/
structure Transport where
  host : String
  port : Nat
  secure : Bool
  authUser : Option String
  authPass : Option String
deriving Repr, DecidableEq

/-- One log record.  `companyName` mirrors a possibly-undefined JS value.
For `status`: `none` means the key is absent from the JSON object (the
simplified variant writes entries without a status key).  For `error`:
`none` means the key is absent, `some none` a JS `null`, and
`some (some m)` an error message `m`. -/
structure LogEntry where
  email : Option String
  companyName : Option String
  timestamp : String
  status : Option String
  error : Option (Option String)
deriving Repr, DecidableEq

/-- The persisted send log: `{sent: [...], failed: [...]}`. -/
structure SendLog where
  sent : List LogEntry := []
  failed : List LogEntry := []
deriving Repr, DecidableEq

def emptyLog : SendLog := {}

/-- The options object handed to `transporter.sendMail`.  `attachments`
holds the attachment identifiers (the CV path in the simplified variant,
the CV's base filename in the extended one). -/
structure MailOptions where
  fromAddr : Option String
  toAddr : Option String
  subject : String
  text : String
  attachments : List String
deriving Repr, DecidableEq

/-- Observable side effects of a run, in order. -/
inductive Event where
  | transportCall (opts : MailOptions)
  | persist (log : SendLog)
  | sleepMs (ms : Nat)
deriving Repr, DecidableEq

/-- Coarse tag of an event, used to state trace-shape facts without
comparing full payloads. -/
inductive ETag where
  | t
  | p
  | s
deriving Repr, DecidableEq

def etag : Event → ETag
  | .transportCall _ => .t
  | .persist _ => .p
  | .sleepMs _ => .s

def isT : Event → Bool
  | .transportCall _ => true
  | _ => false

def isS : Event → Bool
  | .sleepMs _ => true
  | _ => false

def keyEv (e : Event) : Bool := isT e || isS e

/-- No two adjacent events are transport calls.  Applied to the
transport/sleep skeleton of a trace (`filter keyEv`), this says no two
transport calls occur without an intervening sleep. -/
def noTwoTransports : List Event → Bool
  | e1 :: e2 :: rest => !(isT e1 && isT e2) && noTwoTransports (e2 :: rest)
  | _ => true

/-- Contents of the log file on disk after a list of events has run,
starting from `init`: the payload of the last `persist`. -/
def diskAfter (init : SendLog) : List Event → SendLog
  | [] => init
  | .persist l :: rest => diskAfter l rest
  | .transportCall _ :: rest => diskAfter init rest
  | .sleepMs _ :: rest => diskAfter init rest

/-- State of the log file before a run: absent, well-formed, or
malformed with the parse error message `fs.readJSON` would throw. -/
inductive FileContent where
  | valid (log : SendLog)
  | malformed (msg : String)
deriving Repr, DecidableEq

/-- Structural check for the `YYYY-MM-DDTHH:MM:SS.mmmZ` shape produced
by `Date.prototype.toISOString`. -/
def isISO8601 (s : String) : Bool :=
  let cs := s.toList
  cs.length == 24 &&
  (List.range 24).all (fun i =>
    let c := cs.getD i ' '
    match i with
    | 4 => c == '-'
    | 7 => c == '-'
    | 10 => c == 'T'
    | 13 => c == ':'
    | 16 => c == ':'
    | 19 => c == '.'
    | 23 => c == 'Z'
    | _ => c.isDigit)

/-- Outcome of CLI argument handling (which top-level branch runs). -/
inductive CliAction where
  | helpAct
  | bulkAct
  | singleAct (toAddr companyName founderName : String)
deriving Repr, DecidableEq

/-- Composed message of the simplified variant's `createEmail`. -/
structure EmailMsg where
  subject : String
  body : String
deriving Repr, DecidableEq

/-- Result of a run: event trace plus final in-memory log. -/
structure RunOut where
  events : List Event
  log : SendLog
deriving Repr, DecidableEq

/-- The counts the simplified variant prints on its final line. -/
structure Summary where
  successCount : Nat
  failCount : Nat
deriving Repr, DecidableEq

/-- Result of the extended variant's loop: trace, final log, and the
per-run counters `successCount` / `failCount`. -/
structure StepOut where
  events : List Event
  log : SendLog
  sc : Nat
  fc : Nat
deriving Repr, DecidableEq

/-- The extended variant's final summary data: the two per-run counters
and the reported log file location. -/
structure Report where
  successCount : Nat
  failCount : Nat
  logPath : String
deriving Repr, DecidableEq

namespace Simple

def DELAY_MINUTES : Nat := 1
def CV_PATH : String := "./test_cv.pdf"
def LOG_FILE : String := "./emails/sent_emails_log.json"

/-- `createTransport` of the simplified variant: no credential check is
performed; `nodemailer.createTransport` itself only records the options
and raises nothing at construction time. -/
def createTransport (env : Env) : Except String Transport :=
  .ok { host := "smtp.gmail.com", port := 587, secure := false,
        authUser := env.user, authPass := env.pass }

/-- The greeting computed inside the simplified `createEmail`
(`founderName?.replace(...).trim()` then the fallback chain). -/
def greeting (founderName companyName : Option String) : String :=
  let name := founderName.map cleanName
  if truthy name && !(name == some "N/A") then
    "Dear " ++ name.getD ""
  else if truthy companyName && !(companyName == some "N/A") then
    "Dear " ++ companyName.getD "" ++ " team"
  else
    "Dear Hiring Manager"

/-- The fixed part of the simplified variant's body template, following
the greeting. -/
def bodyTail : String := ",\n\nI am a full-stack developer looking for an internship opportunity.\n\nI have experience with React.js, Node.js, and modern web development. I am motivated to learn and contribute to your team.\n\nPlease find my CV attached.\n\nBest regards"

def createEmail (founderName companyName : Option String) : EmailMsg :=
  { subject := "Internship Application - Full Stack Developer",
    body := greeting founderName companyName ++ bodyTail }

/-- `loadLog` of the simplified variant: `fs.readJSON` is not guarded,
so a malformed existing file propagates its parse error. -/
def loadLog : Option FileContent → Except String SendLog
  | none => .ok emptyLog
  | some (.valid l) => .ok l
  | some (.malformed m) => .error m

def resolveEmail (c : RawContact) : Option String :=
  jsOr c.email c.EntrepriseContactEmail

def resolveCompany (c : RawContact) : Option String :=
  jsOr c.companyName c.EntrepriseName

def resolveFounder (c : RawContact) : Option String :=
  jsOr c.founderName c.EntrepriseContactName

/-- The filter callback of the simplified `sendBulkEmails`. -/
def keep (alreadySent : List (Option String)) (c : RawContact) : Bool :=
  let email := resolveEmail c
  truthy email && !(email == some "N/A") && !(alreadySent.contains email)
    && containsChar (email.getD "") '@'

/-- Top-level branch choice of the simplified variant's entry point. -/
def mainAction (args : List String) : CliAction :=
  if args.contains "--help" || args.contains "-h" then .helpAct else .bulkAct

/-- The `sent` entry pushed by the simplified success branch
(`{email, companyName, timestamp}` — no status key, no error key). -/
def sentEntry (c : RawContact) (tstamp : String) : LogEntry :=
  { email := resolveEmail c, companyName := resolveCompany c,
    timestamp := tstamp, status := none, error := none }

/-- The `failed` entry pushed by the simplified catch branch
(`{email, companyName, error, timestamp}` — no status key). -/
def failedEntry (c : RawContact) (tstamp m : String) : LogEntry :=
  { email := resolveEmail c, companyName := resolveCompany c,
    timestamp := tstamp, status := none, error := some (some m) }

/-- The `sendMail` options built by the simplified `sendEmail`. -/
def mailOpts (env : Env) (cvEx : Bool) (c : RawContact) : MailOptions :=
  { fromAddr := env.user, toAddr := resolveEmail c,
    subject := (createEmail (resolveFounder c) (resolveCompany c)).subject,
    text := (createEmail (resolveFounder c) (resolveCompany c)).body,
    attachments := if cvEx then [CV_PATH] else [] }

section LoopDefs

variable (env : Env) (cvEx : Bool) (outcome : Nat → Except String Unit)
  (ts : Nat → String)

/-- One iteration of the simplified dispatch loop on contact `c` at
index `i` of `n` candidates.  On success the sleep precedes the
`saveLog` (the `await sleep` sits inside the `try`, before the
end-of-iteration `await saveLog(log)`); on failure there is no sleep. -/
def step (c : RawContact) (i n : Nat) (log : SendLog) : RunOut :=
  match outcome i with
  | .ok _ =>
    let log2 := { log with sent := log.sent ++ [sentEntry c (ts i)] }
    { events := [.transportCall (mailOpts env cvEx c)]
        ++ (if i < n - 1 then [.sleepMs (DELAY_MINUTES * 60000)] else [])
        ++ [.persist log2],
      log := log2 }
  | .error m =>
    let log2 := { log with failed := log.failed ++ [failedEntry c (ts i) m] }
    { events := [.transportCall (mailOpts env cvEx c), .persist log2],
      log := log2 }

/-- The simplified dispatch loop over the filtered contacts. -/
def loop (n : Nat) : List RawContact → Nat → SendLog → RunOut
  | [], _, log => { events := [], log := log }
  | c :: rest, i, log =>
    { events := (step env cvEx outcome ts c i n log).events
        ++ (loop n rest (i + 1) (step env cvEx outcome ts c i n log).log).events,
      log := (loop n rest (i + 1) (step env cvEx outcome ts c i n log).log).log }

/-- The simplified `sendBulkEmails`: filter, loop, and the final printed
counts, which are the cumulative lengths of the final log's lists. -/
def sendBulkEmails (companies : List RawContact) (log0 : SendLog) :
    RunOut × Summary :=
  let alreadySent := log0.sent.map (fun e => e.email)
  let toSend := companies.filter (keep alreadySent)
  let r := loop env cvEx outcome ts toSend.length toSend 0 log0
  (r, { successCount := r.log.sent.length, failCount := r.log.failed.length })

end LoopDefs

end Simple

namespace Ext

def DELAY_BETWEEN_EMAILS : Nat := 120000 / 2
def CV_PATH : String := "/home/xylar-99/Desktop/data/enginner_cv/Abdelbassat_Quaoubai_FullStack_Engineer_CV.pdf"
def LOG_FILE : String := "./emails/sent_emails_log.json"

/-- `createTransport` of the extended variant: throws when either
credential is falsy. -/
def createTransport (env : Env) : Except String Transport :=
  if !truthy env.user || !truthy env.pass then
    .error "Missing GMAIL_USER or GMAIL_APP_PASSWORD in environment variables or .env file"
  else
    .ok { host := "smtp.gmail.com", port := 587, secure := false,
          authUser := env.user, authPass := env.pass }

def getEmailSubject : String :=
  "Internship Application: Fullstack / Web Development Intern Position"

/-- Message of the TypeError V8 raises when `.replace` is read off an
undefined `founderName` (the extended variant has no optional chaining). -/
def undefinedReplaceMsg : String :=
  "Cannot read properties of undefined (reading \x27replace\x27)"

/-- The fixed part of the extended variant's body template, following
the greeting (trailing double spaces are in the source template). -/
def extTail : String := ",\n\nMy name is xylaaaaaaaaaaaaa Quaoubai, a full-stack development student at 1337. I am looking for a Web Development / Fullstack internship.\n\nI work with React.js for frontend and NestJS + Fastify for backend. I can build APIs, authentication systems, dashboards, and full web applications. I enjoy writing clean code, solving problems, and learning new tools quickly.\n\nI am motivated, serious, and able to work on real projects. I have attached my resume so you can see my skills and previous work.\n\nThank you for taking the time to read my message.  \nI hope to get the chance to join your team and contribute.\n\nBest regards,  \nAbdelbassat Quaoubai  \n+212 715 822 574  \nGitHub: https://github.com/xylar-99"

/-- `createPersonalizedEmail` of the extended variant: dereferences
`founderName.replace` unguarded, so an undefined `founderName` throws. -/
def createPersonalizedEmail (founderName companyName : Option String) :
    Except String String :=
  match founderName with
  | none => .error undefinedReplaceMsg
  | some fn =>
    let cn := cleanName fn
    let greet :=
      if !(cn == "") && !(cn == "N/A") then "Dear " ++ cn
      else if truthy companyName && !(companyName == some "N/A") then
        "Dear " ++ companyName.getD "" ++ " team"
      else "Dear Hiring Manager"
    .ok (greet ++ extTail)

/-- `path.basename`. -/
def basename (p : String) : String :=
  String.mk (p.data.foldl (fun acc c => if c == '/' then [] else acc ++ [c]) [])

/-- `loadSentLog` of the extended variant; the `Bool` records whether
the "Could not load sent log" warning was printed. -/
def loadSentLog : Option FileContent → SendLog × Bool
  | none => (emptyLog, false)
  | some (.valid l) => (l, false)
  | some (.malformed _) => (emptyLog, true)

/-- The entry object built by `addToLog`: always has a `status` key and
always has an `error` key (`null` on success). -/
def mkEntry (email companyName : Option String) (tstamp status : String)
    (err : Option String) : LogEntry :=
  { email := email, companyName := companyName, timestamp := tstamp,
    status := some status, error := some err }

/-- `addToLog`: build the entry, append to `sent` or `failed` by status,
and immediately persist.  Returns the new log and the persist event. -/
def addToLog (log : SendLog) (email companyName : Option String)
    (tstamp : String) (status : String) (err : Option String) :
    SendLog × List Event :=
  let entry := mkEntry email companyName tstamp status err
  let log2 :=
    if status == "success" then { log with sent := log.sent ++ [entry] }
    else { log with failed := log.failed ++ [entry] }
  (log2, [Event.persist log2])

/-- The inter-send suspension (`if (i < toSend.length - 1) await sleep`),
issued in both the success and the catch branch. -/
def sleepAfter (i n : Nat) : List Event :=
  if i < n - 1 then [Event.sleepMs DELAY_BETWEEN_EMAILS] else []

/-- The filter callback of the extended `sendBulkEmails`: only the
native `email` field is consulted. -/
def keep (alreadySent : List (Option String)) (c : RawContact) : Bool :=
  truthy c.email && !(c.email == some "N/A") && !(alreadySent.contains c.email)
    && containsChar (c.email.getD "") '@'

structure ParsedArgs where
  toAddr : Option String
  companyName : String
  founderName : String
  help : Bool
deriving Repr, DecidableEq

/-- One step of the extended variant's `parseArgs` fold. -/
def parseStep (res : ParsedArgs) (arg : String) : ParsedArgs :=
  if arg == "--help" || arg == "-h" then { res with help := true }
  else if strStartsWith arg "--to=" then { res with toAddr := some (dropStr arg 5) }
  else if strStartsWith arg "--name=" then { res with companyName := dropStr arg 7 }
  else if strStartsWith arg "--founder=" then { res with founderName := dropStr arg 10 }
  else res

def parseArgs (argv : List String) : ParsedArgs :=
  argv.foldl parseStep { toAddr := none, companyName := "", founderName := "", help := false }

/-- Top-level branch choice of the extended variant's entry point. -/
def mainAction (argv : List String) : CliAction :=
  let a := parseArgs argv
  if a.help then .helpAct
  else
    match a.toAddr with
    | some t => .singleAct t a.companyName a.founderName
    | none => .bulkAct

/-- The `sendMail` options built by the extended `sendEmail` once the
message text is composed. -/
def mailOpts (env : Env) (cvEx : Bool) (c : RawContact) (text : String) :
    MailOptions :=
  { fromAddr := env.user, toAddr := c.email, subject := getEmailSubject,
    text := text, attachments := if cvEx then [basename CV_PATH] else [] }

section LoopDefs

variable (env : Env) (cvEx : Bool) (outcome : Nat → Except String Unit)
  (ts : Nat → String)

/-- One iteration of the extended dispatch loop on contact `c` at index
`i` of `n` candidates.  `sendEmail` composes first, then constructs the
transport, then calls `sendMail`; any throw lands in the catch branch,
which logs a failed entry and still sleeps before the next contact. -/
def step (c : RawContact) (i n : Nat) (log : SendLog) : StepOut :=
  match createPersonalizedEmail c.founderName c.companyName with
  | .error m =>
    let r := addToLog log c.email c.companyName (ts i) "failed" (some m)
    { events := r.2 ++ sleepAfter i n, log := r.1, sc := 0, fc := 1 }
  | .ok text =>
    match createTransport env with
    | .error m =>
      let r := addToLog log c.email c.companyName (ts i) "failed" (some m)
      { events := r.2 ++ sleepAfter i n, log := r.1, sc := 0, fc := 1 }
    | .ok _t =>
      match outcome i with
      | .ok _ =>
        let r := addToLog log c.email c.companyName (ts i) "success" none
        { events := [.transportCall (mailOpts env cvEx c text)] ++ r.2 ++ sleepAfter i n,
          log := r.1, sc := 1, fc := 0 }
      | .error m =>
        let r := addToLog log c.email c.companyName (ts i) "failed" (some m)
        { events := [.transportCall (mailOpts env cvEx c text)] ++ r.2 ++ sleepAfter i n,
          log := r.1, sc := 0, fc := 1 }

/-- The extended dispatch loop over the filtered contacts. -/
def loop (n : Nat) : List RawContact → Nat → SendLog → StepOut
  | [], _, log => { events := [], log := log, sc := 0, fc := 0 }
  | c :: rest, i, log =>
    { events := (step env cvEx outcome ts c i n log).events
        ++ (loop n rest (i + 1) (step env cvEx outcome ts c i n log).log).events,
      log := (loop n rest (i + 1) (step env cvEx outcome ts c i n log).log).log,
      sc := (step env cvEx outcome ts c i n log).sc
        + (loop n rest (i + 1) (step env cvEx outcome ts c i n log).log).sc,
      fc := (step env cvEx outcome ts c i n log).fc
        + (loop n rest (i + 1) (step env cvEx outcome ts c i n log).log).fc }

/-- The extended `sendBulkEmails`: filter, early return when nothing is
to send (in which case no summary is printed), otherwise loop and report
the per-run counters together with the log file location. -/
def sendBulkEmails (companies : List RawContact) (log0 : SendLog) :
    StepOut × Option Report :=
  let alreadySent := log0.sent.map (fun e => e.email)
  let toSend := companies.filter (keep alreadySent)
  if toSend.isEmpty then
    ({ events := [], log := log0, sc := 0, fc := 0 }, none)
  else
    let r := loop env cvEx outcome ts toSend.length toSend 0 log0
    (r, some { successCount := r.sc, failCount := r.fc, logPath := LOG_FILE })

end LoopDefs

end Ext

/-! ## Concrete fixtures

Inputs used by counterexamples and witnesses. -/

def envOk : Env := { user := some "me@gmail.com", pass := some "pw" }

def envMissing : Env := { user := none, pass := none }

def okOut : Nat → Except String Unit := fun _ => .ok ()

def failFirst : Nat → Except String Unit :=
  fun i => if i == 0 then .error "SMTP error" else .ok ()

def ts0 : Nat → String := fun _ => "2026-01-13T12:00:00.000Z"

/-- The native-scheme record of the field-scheme-equivalence property. -/
def recNative : RawContact :=
  { email := some "a@b.com", companyName := some "X", founderName := some "Y" }

/-- The alternate-scheme record of the field-scheme-equivalence property. -/
def recAlternate : RawContact :=
  { EntrepriseContactEmail := some "a@b.com", EntrepriseName := some "X",
    EntrepriseContactName := some "Y" }

def cA : RawContact :=
  { email := some "a@b.com", companyName := some "Acme", founderName := some "Jane" }

def cB : RawContact :=
  { email := some "c@d.com", companyName := some "Beta", founderName := some "Bob" }

/-- A contact that passes the email filter but has no founderName key. -/
def cNoFounder : RawContact :=
  { email := some "a@b.com", companyName := some "Acme" }

/-- A sent entry from an earlier run (simplified-variant shape). -/
def priorEntry : LogEntry :=
  { email := some "old@x.com", companyName := some "Old",
    timestamp := "2026-01-01T00:00:00.000Z", status := none, error := none }

def priorLog : SendLog := { sent := [priorEntry], failed := [] }

/-- A contact whose email already appears in `priorLog.sent`. -/
def cOld : RawContact :=
  { email := some "old@x.com", companyName := some "OldCo",
    founderName := some "Olga" }

/-! ## Helper lemmas -/

theorem parseStep_help_mono (res : Ext.ParsedArgs) (arg : String)
    (h : res.help = true) : (Ext.parseStep res arg).help = true := by
  unfold Ext.parseStep
  repeat' split
  all_goals simp [h]

theorem foldl_help_mono : ∀ (argv : List String) (res : Ext.ParsedArgs),
    res.help = true → (argv.foldl Ext.parseStep res).help = true := by
  intro argv
  induction argv with
  | nil => intro res h; simpa using h
  | cons a argv ih => intro res h; exact ih _ (parseStep_help_mono res a h)

theorem parseArgs_help_of_mem : ∀ (argv : List String) (res : Ext.ParsedArgs),
    "--help" ∈ argv → (argv.foldl Ext.parseStep res).help = true := by
  intro argv
  induction argv with
  | nil => intro res h; cases h
  | cons a argv ih =>
    intro res h
    rcases List.mem_cons.mp h with h1 | h2
    · subst h1
      refine foldl_help_mono argv _ ?_
      unfold Ext.parseStep
      simp
    · exact ih _ h2

/-- Block shape of one simplified iteration: a transport call, then an
optional sleep, then the persist of the updated log — the persist is the
last event of the block. -/
theorem simple_step_shape (env : Env) (cvEx : Bool)
    (outcome : Nat → Except String Unit) (ts : Nat → String) (c : RawContact)
    (i n : Nat) (log : SendLog) :
    ∃ sl, (Simple.step env cvEx outcome ts c i n log).events
        = Event.transportCall (Simple.mailOpts env cvEx c)
            :: (sl ++ [Event.persist (Simple.step env cvEx outcome ts c i n log).log])
        ∧ (sl = [] ∨ sl = [Event.sleepMs (Simple.DELAY_MINUTES * 60000)]) := by
  cases ho : outcome i with
  | ok u =>
    by_cases hi : i < n - 1
    · exact ⟨[Event.sleepMs (Simple.DELAY_MINUTES * 60000)],
        by simp [Simple.step, ho, hi], Or.inr rfl⟩
    · exact ⟨[], by simp [Simple.step, ho, hi], Or.inl rfl⟩
  | error m => exact ⟨[], by simp [Simple.step, ho], Or.inl rfl⟩

/-- Block shape of one extended iteration: an optional transport call,
then immediately the persist of the updated log, then an optional sleep
— the persist precedes the sleep and directly follows the attempt. -/
theorem ext_step_shape (env : Env) (cvEx : Bool)
    (outcome : Nat → Except String Unit) (ts : Nat → String) (c : RawContact)
    (i n : Nat) (log : SendLog) :
    ∃ se sl, (Ext.step env cvEx outcome ts c i n log).events
        = se ++ (Event.persist (Ext.step env cvEx outcome ts c i n log).log :: sl)
        ∧ (se = [] ∨ ∃ opts, se = [Event.transportCall opts])
        ∧ (sl = [] ∨ sl = [Event.sleepMs Ext.DELAY_BETWEEN_EMAILS]) := by
  have hsl : Ext.sleepAfter i n = [] ∨ Ext.sleepAfter i n = [Event.sleepMs Ext.DELAY_BETWEEN_EMAILS] := by
    unfold Ext.sleepAfter
    by_cases hi : i < n - 1 <;> simp [hi]
  cases h1 : Ext.createPersonalizedEmail c.founderName c.companyName with
  | error m =>
    exact ⟨[], Ext.sleepAfter i n,
      by simp [Ext.step, h1, Ext.addToLog], Or.inl rfl, hsl⟩
  | ok text =>
    cases h2 : Ext.createTransport env with
    | error m =>
      exact ⟨[], Ext.sleepAfter i n,
        by simp [Ext.step, h1, h2, Ext.addToLog], Or.inl rfl, hsl⟩
    | ok t =>
      cases h3 : outcome i with
      | ok u =>
        exact ⟨[Event.transportCall (Ext.mailOpts env cvEx c text)], Ext.sleepAfter i n,
          by simp [Ext.step, h1, h2, h3, Ext.addToLog], Or.inr ⟨_, rfl⟩, hsl⟩
      | error m =>
        exact ⟨[Event.transportCall (Ext.mailOpts env cvEx c text)], Ext.sleepAfter i n,
          by simp [Ext.step, h1, h2, h3, Ext.addToLog], Or.inr ⟨_, rfl⟩, hsl⟩

theorem noTT_cons_cons (x y : Event) (l : List Event) :
    noTwoTransports (x :: y :: l)
      = (!(isT x && isT y) && noTwoTransports (y :: l)) := rfl

theorem noTT_tail (x : Event) (l : List Event)
    (h : noTwoTransports (x :: l) = true) : noTwoTransports l = true := by
  cases l with
  | nil => rfl
  | cons y l =>
    rw [noTT_cons_cons] at h
    simp only [Bool.and_eq_true] at h
    exact h.2

theorem noTT_append (b : List Event) (hb : noTwoTransports b = true) :
    ∀ a : List Event, noTwoTransports a = true →
    (∀ x y, a.getLast? = some x → b.head? = some y → (!(isT x && isT y)) = true) →
    noTwoTransports (a ++ b) = true := by
  intro a
  induction a with
  | nil => intro _ _; simpa using hb
  | cons x a ih =>
    intro ha hj
    cases a with
    | nil =>
      cases b with
      | nil => rfl
      | cons y b2 =>
        rw [List.singleton_append, noTT_cons_cons]
        simp only [Bool.and_eq_true]
        exact ⟨hj x y rfl rfl, hb⟩
    | cons z a2 =>
      rw [List.cons_append, List.cons_append, noTT_cons_cons]
      simp only [Bool.and_eq_true]
      refine ⟨?_, ?_⟩
      · rw [noTT_cons_cons] at ha
        simp only [Bool.and_eq_true] at ha
        exact ha.1
      · have ha2 : noTwoTransports (z :: a2) = true := noTT_tail _ _ ha
        have hj2 : ∀ x y, (z :: a2).getLast? = some x → b.head? = some y →
            (!(isT x && isT y)) = true := by
          intro x2 y2 hg hh
          refine hj x2 y2 ?_ hh
          rw [List.getLast?_cons_cons]
          exact hg
        have := ih ha2 hj2
        rw [List.cons_append] at this
        exact this

/-- The sleep events of one extended iteration are exactly its trailing
inter-send suspension. -/
theorem ext_step_filter_isS (env : Env) (cvEx : Bool)
    (outcome : Nat → Except String Unit) (ts : Nat → String) (c : RawContact)
    (i n : Nat) (log : SendLog) :
    (Ext.step env cvEx outcome ts c i n log).events.filter isS
      = Ext.sleepAfter i n := by
  have hs : (Ext.sleepAfter i n).filter isS = Ext.sleepAfter i n := by
    unfold Ext.sleepAfter
    by_cases hi : i < n - 1 <;> simp [hi, isS]
  cases h1 : Ext.createPersonalizedEmail c.founderName c.companyName with
  | error m => simp [Ext.step, h1, Ext.addToLog, isS, hs]
  | ok text =>
    cases h2 : Ext.createTransport env with
    | error m => simp [Ext.step, h1, h2, Ext.addToLog, isS, hs]
    | ok t =>
      cases h3 : outcome i with
      | ok u => simp [Ext.step, h1, h2, h3, Ext.addToLog, isS, hs]
      | error m => simp [Ext.step, h1, h2, h3, Ext.addToLog, isS, hs]

/-- The transport/sleep skeleton of one extended iteration: an optional
transport call followed by the trailing suspension. -/
theorem ext_step_filter_key (env : Env) (cvEx : Bool)
    (outcome : Nat → Except String Unit) (ts : Nat → String) (c : RawContact)
    (i n : Nat) (log : SendLog) :
    ∃ tOpt, (Ext.step env cvEx outcome ts c i n log).events.filter keyEv
        = tOpt ++ Ext.sleepAfter i n
      ∧ (tOpt = [] ∨ ∃ opts, tOpt = [Event.transportCall opts]) := by
  have hs : (Ext.sleepAfter i n).filter keyEv = Ext.sleepAfter i n := by
    unfold Ext.sleepAfter
    by_cases hi : i < n - 1 <;> simp [hi, keyEv, isS, isT]
  cases h1 : Ext.createPersonalizedEmail c.founderName c.companyName with
  | error m =>
    exact ⟨[], by simp [Ext.step, h1, Ext.addToLog, keyEv, isS, isT, hs], Or.inl rfl⟩
  | ok text =>
    cases h2 : Ext.createTransport env with
    | error m =>
      exact ⟨[], by simp [Ext.step, h1, h2, Ext.addToLog, keyEv, isS, isT, hs], Or.inl rfl⟩
    | ok t =>
      cases h3 : outcome i with
      | ok u =>
        exact ⟨[Event.transportCall (Ext.mailOpts env cvEx c text)],
          by simp [Ext.step, h1, h2, h3, Ext.addToLog, keyEv, isS, isT, hs],
          Or.inr ⟨_, rfl⟩⟩
      | error m =>
        exact ⟨[Event.transportCall (Ext.mailOpts env cvEx c text)],
          by simp [Ext.step, h1, h2, h3, Ext.addToLog, keyEv, isS, isT, hs],
          Or.inr ⟨_, rfl⟩⟩

/-- The extended loop issues exactly `length − 1` suspensions over its
remaining contacts (one after every attempt but the last). -/
theorem ext_loop_sleep_count (env : Env) (cvEx : Bool)
    (outcome : Nat → Except String Unit) (ts : Nat → String) (n : Nat) :
    ∀ (rest : List RawContact) (i : Nat) (log : SendLog), i + rest.length = n →
      ((Ext.loop env cvEx outcome ts n rest i log).events.filter isS).length
        = rest.length - 1 := by
  intro rest
  induction rest with
  | nil => intro i log _; simp [Ext.loop]
  | cons c rest ih =>
    intro i log hinv
    have hev : (Ext.loop env cvEx outcome ts n (c :: rest) i log).events
        = (Ext.step env cvEx outcome ts c i n log).events
          ++ (Ext.loop env cvEx outcome ts n rest (i + 1)
              (Ext.step env cvEx outcome ts c i n log).log).events := rfl
    rw [hev, List.filter_append, List.length_append,
      ext_step_filter_isS env cvEx outcome ts c i n log]
    cases rest with
    | nil =>
      have hi : ¬(i < n - 1) := by simp at hinv; omega
      simp [Ext.loop, Ext.sleepAfter, hi]
    | cons d rest2 =>
      have hi : i < n - 1 := by simp at hinv; omega
      rw [ih (i + 1) (Ext.step env cvEx outcome ts c i n log).log
        (by simp at hinv ⊢; omega)]
      simp [Ext.sleepAfter, hi]
      omega

/-- The extended loop never issues two transport calls without an
intervening sleep: its transport/sleep skeleton has no two adjacent
transport calls. -/
theorem ext_loop_paced (env : Env) (cvEx : Bool)
    (outcome : Nat → Except String Unit) (ts : Nat → String) (n : Nat) :
    ∀ (rest : List RawContact) (i : Nat) (log : SendLog), i + rest.length = n →
      noTwoTransports
        ((Ext.loop env cvEx outcome ts n rest i log).events.filter keyEv) = true := by
  intro rest
  induction rest with
  | nil => intro i log _; simp [Ext.loop, noTwoTransports]
  | cons c rest ih =>
    intro i log hinv
    have hev : (Ext.loop env cvEx outcome ts n (c :: rest) i log).events
        = (Ext.step env cvEx outcome ts c i n log).events
          ++ (Ext.loop env cvEx outcome ts n rest (i + 1)
              (Ext.step env cvEx outcome ts c i n log).log).events := rfl
    rw [hev, List.filter_append]
    obtain ⟨tOpt, hkey, htOpt⟩ := ext_step_filter_key env cvEx outcome ts c i n log
    rw [hkey]
    cases rest with
    | nil =>
      have : (Ext.loop env cvEx outcome ts n [] (i + 1)
          (Ext.step env cvEx outcome ts c i n log).log).events = [] := rfl
      rw [this, List.filter_nil, List.append_nil]
      rcases htOpt with h | ⟨opts, h⟩ <;> subst h
      · unfold Ext.sleepAfter
        by_cases hi : i < n - 1 <;> simp [hi, noTwoTransports]
      · unfold Ext.sleepAfter
        by_cases hi : i < n - 1 <;> simp [hi, noTwoTransports, isT, isS]
    | cons d rest2 =>
      have hi : i < n - 1 := by simp at hinv; omega
      have hsl : Ext.sleepAfter i n = [Event.sleepMs Ext.DELAY_BETWEEN_EMAILS] := by
        unfold Ext.sleepAfter; simp [hi]
      rw [hsl]
      have hrest := ih (i + 1) (Ext.step env cvEx outcome ts c i n log).log
        (by simp at hinv ⊢; omega)
      refine noTT_append _ hrest (tOpt ++ [Event.sleepMs Ext.DELAY_BETWEEN_EMAILS]) ?_ ?_
      · rcases htOpt with h | ⟨opts, h⟩ <;> subst h <;>
          simp [noTwoTransports, isT, isS]
      · intro x y hg _
        have hx : x = Event.sleepMs Ext.DELAY_BETWEEN_EMAILS := by
          rw [List.getLast?_concat] at hg
          exact (Option.some.inj hg).symm
        subst hx
        simp [isT]

/-- Effect of one simplified iteration on the log: either one new sent
entry or one new failed entry. -/
theorem simple_step_log (env : Env) (cvEx : Bool)
    (outcome : Nat → Except String Unit) (ts : Nat → String) (c : RawContact)
    (i n : Nat) (log : SendLog) :
    ((Simple.step env cvEx outcome ts c i n log).log.sent
        = log.sent ++ [Simple.sentEntry c (ts i)]
      ∧ (Simple.step env cvEx outcome ts c i n log).log.failed = log.failed)
    ∨ (∃ m, (Simple.step env cvEx outcome ts c i n log).log.sent = log.sent
      ∧ (Simple.step env cvEx outcome ts c i n log).log.failed
          = log.failed ++ [Simple.failedEntry c (ts i) m]) := by
  cases ho : outcome i with
  | ok u => exact Or.inl ⟨by simp [Simple.step, ho], by simp [Simple.step, ho]⟩
  | error m => exact Or.inr ⟨m, by simp [Simple.step, ho], by simp [Simple.step, ho]⟩

/-- Every transport call of one simplified iteration carries the mail
options of that contact. -/
theorem simple_step_transport (env : Env) (cvEx : Bool)
    (outcome : Nat → Except String Unit) (ts : Nat → String) (c : RawContact)
    (i n : Nat) (log : SendLog) (opts : MailOptions)
    (h : Event.transportCall opts ∈ (Simple.step env cvEx outcome ts c i n log).events) :
    opts = Simple.mailOpts env cvEx c := by
  cases ho : outcome i with
  | ok u =>
    by_cases hi : i < n - 1 <;> simp [Simple.step, ho, hi] at h <;> exact h
  | error m =>
    simp [Simple.step, ho] at h
    exact h

/-- Shape of the simplified loop's outcome: the final `sent` list is the
initial one followed by new entries, each a `sentEntry` of a remaining
contact, and every transport call addresses a remaining contact. -/
theorem simple_loop_shape (env : Env) (cvEx : Bool)
    (outcome : Nat → Except String Unit) (ts : Nat → String) (n : Nat) :
    ∀ (rest : List RawContact) (i : Nat) (log : SendLog),
      ∃ ns, (Simple.loop env cvEx outcome ts n rest i log).log.sent = log.sent ++ ns
        ∧ (∀ en ∈ ns, ∃ c ∈ rest, ∃ j, en = Simple.sentEntry c (ts j))
        ∧ (∀ opts, Event.transportCall opts
            ∈ (Simple.loop env cvEx outcome ts n rest i log).events →
            ∃ c ∈ rest, opts = Simple.mailOpts env cvEx c) := by
  intro rest
  induction rest with
  | nil =>
    intro i log
    exact ⟨[], by simp [Simple.loop], by simp, by simp [Simple.loop]⟩
  | cons c rest ih =>
    intro i log
    obtain ⟨ns, h1, h2, h3⟩ := ih (i + 1) (Simple.step env cvEx outcome ts c i n log).log
    have hlog : (Simple.loop env cvEx outcome ts n (c :: rest) i log).log
        = (Simple.loop env cvEx outcome ts n rest (i + 1)
            (Simple.step env cvEx outcome ts c i n log).log).log := rfl
    have hev : (Simple.loop env cvEx outcome ts n (c :: rest) i log).events
        = (Simple.step env cvEx outcome ts c i n log).events
          ++ (Simple.loop env cvEx outcome ts n rest (i + 1)
              (Simple.step env cvEx outcome ts c i n log).log).events := rfl
    have htr : ∀ opts, Event.transportCall opts
        ∈ (Simple.loop env cvEx outcome ts n (c :: rest) i log).events →
        ∃ c2 ∈ c :: rest, opts = Simple.mailOpts env cvEx c2 := by
      intro opts hopts
      rw [hev] at hopts
      rcases List.mem_append.mp hopts with hh | hh
      · exact ⟨c, List.mem_cons_self c rest,
          simple_step_transport env cvEx outcome ts c i n log opts hh⟩
      · obtain ⟨c2, hc2, heq⟩ := h3 opts hh
        exact ⟨c2, List.mem_cons_of_mem c hc2, heq⟩
    rcases simple_step_log env cvEx outcome ts c i n log with ⟨hs, _⟩ | ⟨m, hs, _⟩
    · refine ⟨Simple.sentEntry c (ts i) :: ns, ?_, ?_, htr⟩
      · rw [hlog, h1, hs]
        simp
      · intro en hen
        rcases List.mem_cons.mp hen with he | he
        · exact ⟨c, List.mem_cons_self c rest, i, he⟩
        · obtain ⟨c2, hc2, j, hej⟩ := h2 en he
          exact ⟨c2, List.mem_cons_of_mem c hc2, j, hej⟩
    · refine ⟨ns, ?_, ?_, htr⟩
      · rw [hlog, h1, hs]
      · intro en hen
        obtain ⟨c2, hc2, j, hej⟩ := h2 en hen
        exact ⟨c2, List.mem_cons_of_mem c hc2, j, hej⟩

/-- Effect of one extended iteration on the log and the counters: one
new sent entry (built by `addToLog` with status success and null error)
or one new failed entry (status failed, message error). -/
theorem ext_step_log (env : Env) (cvEx : Bool)
    (outcome : Nat → Except String Unit) (ts : Nat → String) (c : RawContact)
    (i n : Nat) (log : SendLog) :
    ((Ext.step env cvEx outcome ts c i n log).log.sent
        = log.sent ++ [Ext.mkEntry c.email c.companyName (ts i) "success" none]
      ∧ (Ext.step env cvEx outcome ts c i n log).log.failed = log.failed
      ∧ (Ext.step env cvEx outcome ts c i n log).sc = 1
      ∧ (Ext.step env cvEx outcome ts c i n log).fc = 0)
    ∨ (∃ m, (Ext.step env cvEx outcome ts c i n log).log.sent = log.sent
      ∧ (Ext.step env cvEx outcome ts c i n log).log.failed
          = log.failed ++ [Ext.mkEntry c.email c.companyName (ts i) "failed" (some m)]
      ∧ (Ext.step env cvEx outcome ts c i n log).sc = 0
      ∧ (Ext.step env cvEx outcome ts c i n log).fc = 1) := by
  have hfs : (("failed" : String) == "success") = false := by decide
  have hss : (("success" : String) == "success") = true := by decide
  cases h1 : Ext.createPersonalizedEmail c.founderName c.companyName with
  | error m =>
    exact Or.inr ⟨m, by simp [Ext.step, h1, Ext.addToLog, hfs],
      by simp [Ext.step, h1, Ext.addToLog, hfs], by simp [Ext.step, h1],
      by simp [Ext.step, h1]⟩
  | ok text =>
    cases h2 : Ext.createTransport env with
    | error m =>
      exact Or.inr ⟨m, by simp [Ext.step, h1, h2, Ext.addToLog, hfs],
        by simp [Ext.step, h1, h2, Ext.addToLog, hfs], by simp [Ext.step, h1, h2],
        by simp [Ext.step, h1, h2]⟩
    | ok t =>
      cases h3 : outcome i with
      | ok u =>
        exact Or.inl ⟨by simp [Ext.step, h1, h2, h3, Ext.addToLog, hss],
          by simp [Ext.step, h1, h2, h3, Ext.addToLog, hss],
          by simp [Ext.step, h1, h2, h3], by simp [Ext.step, h1, h2, h3]⟩
      | error m =>
        exact Or.inr ⟨m, by simp [Ext.step, h1, h2, h3, Ext.addToLog, hfs],
          by simp [Ext.step, h1, h2, h3, Ext.addToLog, hfs],
          by simp [Ext.step, h1, h2, h3], by simp [Ext.step, h1, h2, h3]⟩

/-- Every transport call of one extended iteration is addressed to that
contact's native email field. -/
theorem ext_step_transport (env : Env) (cvEx : Bool)
    (outcome : Nat → Except String Unit) (ts : Nat → String) (c : RawContact)
    (i n : Nat) (log : SendLog) (opts : MailOptions)
    (h : Event.transportCall opts ∈ (Ext.step env cvEx outcome ts c i n log).events) :
    opts.toAddr = c.email := by
  cases h1 : Ext.createPersonalizedEmail c.founderName c.companyName with
  | error m =>
    by_cases hi : i < n - 1 <;>
      simp [Ext.step, h1, Ext.addToLog, Ext.sleepAfter, hi] at h
  | ok text =>
    cases h2 : Ext.createTransport env with
    | error m =>
      by_cases hi : i < n - 1 <;>
        simp [Ext.step, h1, h2, Ext.addToLog, Ext.sleepAfter, hi] at h
    | ok t =>
      cases h3 : outcome i with
      | ok u =>
        by_cases hi : i < n - 1 <;>
          simp [Ext.step, h1, h2, h3, Ext.addToLog, Ext.sleepAfter, hi] at h <;>
          (subst h; rfl)
      | error m =>
        by_cases hi : i < n - 1 <;>
          simp [Ext.step, h1, h2, h3, Ext.addToLog, Ext.sleepAfter, hi] at h <;>
          (subst h; rfl)

/-- Shape of the extended loop's outcome: the final lists extend the
initial ones, the counters equal the numbers of new entries, each new
entry is an `addToLog` entry of a remaining contact, and every transport
call addresses a remaining contact. -/
theorem ext_loop_shape (env : Env) (cvEx : Bool)
    (outcome : Nat → Except String Unit) (ts : Nat → String) (n : Nat) :
    ∀ (rest : List RawContact) (i : Nat) (log : SendLog),
      ∃ ns nf,
        (Ext.loop env cvEx outcome ts n rest i log).log.sent = log.sent ++ ns
        ∧ (Ext.loop env cvEx outcome ts n rest i log).log.failed = log.failed ++ nf
        ∧ (Ext.loop env cvEx outcome ts n rest i log).sc = ns.length
        ∧ (Ext.loop env cvEx outcome ts n rest i log).fc = nf.length
        ∧ (∀ en ∈ ns, ∃ c ∈ rest, ∃ j, en = Ext.mkEntry c.email c.companyName (ts j) "success" none)
        ∧ (∀ en ∈ nf, ∃ c ∈ rest, ∃ j m, en = Ext.mkEntry c.email c.companyName (ts j) "failed" (some m))
        ∧ (∀ opts, Event.transportCall opts
            ∈ (Ext.loop env cvEx outcome ts n rest i log).events →
            ∃ c ∈ rest, opts.toAddr = c.email) := by
  intro rest
  induction rest with
  | nil =>
    intro i log
    exact ⟨[], [], by simp [Ext.loop], by simp [Ext.loop], by simp [Ext.loop],
      by simp [Ext.loop], by simp, by simp, by simp [Ext.loop]⟩
  | cons c rest ih =>
    intro i log
    obtain ⟨ns, nf, h1, h2, h3, h4, h5, h6, h7⟩ :=
      ih (i + 1) (Ext.step env cvEx outcome ts c i n log).log
    have hlog : (Ext.loop env cvEx outcome ts n (c :: rest) i log).log
        = (Ext.loop env cvEx outcome ts n rest (i + 1)
            (Ext.step env cvEx outcome ts c i n log).log).log := rfl
    have hsc : (Ext.loop env cvEx outcome ts n (c :: rest) i log).sc
        = (Ext.step env cvEx outcome ts c i n log).sc
          + (Ext.loop env cvEx outcome ts n rest (i + 1)
              (Ext.step env cvEx outcome ts c i n log).log).sc := rfl
    have hfc : (Ext.loop env cvEx outcome ts n (c :: rest) i log).fc
        = (Ext.step env cvEx outcome ts c i n log).fc
          + (Ext.loop env cvEx outcome ts n rest (i + 1)
              (Ext.step env cvEx outcome ts c i n log).log).fc := rfl
    have hev : (Ext.loop env cvEx outcome ts n (c :: rest) i log).events
        = (Ext.step env cvEx outcome ts c i n log).events
          ++ (Ext.loop env cvEx outcome ts n rest (i + 1)
              (Ext.step env cvEx outcome ts c i n log).log).events := rfl
    have htr : ∀ opts, Event.transportCall opts
        ∈ (Ext.loop env cvEx outcome ts n (c :: rest) i log).events →
        ∃ c2 ∈ c :: rest, opts.toAddr = c2.email := by
      intro opts hopts
      rw [hev] at hopts
      rcases List.mem_append.mp hopts with hh | hh
      · exact ⟨c, List.mem_cons_self c rest,
          ext_step_transport env cvEx outcome ts c i n log opts hh⟩
      · obtain ⟨c2, hc2, heq⟩ := h7 opts hh
        exact ⟨c2, List.mem_cons_of_mem c hc2, heq⟩
    rcases ext_step_log env cvEx outcome ts c i n log with
      ⟨hs, hf, hc1, hc0⟩ | ⟨m, hs, hf, hc0, hc1⟩
    · refine ⟨Ext.mkEntry c.email c.companyName (ts i) "success" none :: ns, nf,
        ?_, ?_, ?_, ?_, ?_, ?_, htr⟩
      · rw [hlog, h1, hs]; simp
      · rw [hlog, h2, hf]
      · rw [hsc, h3, hc1]; simp [Nat.add_comm]
      · rw [hfc, h4, hc0]; simp
      · intro en hen
        rcases List.mem_cons.mp hen with he | he
        · exact ⟨c, List.mem_cons_self c rest, i, he⟩
        · obtain ⟨c2, hc2, j, hej⟩ := h5 en he
          exact ⟨c2, List.mem_cons_of_mem c hc2, j, hej⟩
      · intro en hen
        obtain ⟨c2, hc2, j, m2, hej⟩ := h6 en hen
        exact ⟨c2, List.mem_cons_of_mem c hc2, j, m2, hej⟩
    · refine ⟨ns, Ext.mkEntry c.email c.companyName (ts i) "failed" (some m) :: nf,
        ?_, ?_, ?_, ?_, ?_, ?_, htr⟩
      · rw [hlog, h1, hs]
      · rw [hlog, h2, hf]; simp
      · rw [hsc, h3, hc0]; simp
      · rw [hfc, h4, hc1]; simp [Nat.add_comm]
      · intro en hen
        obtain ⟨c2, hc2, j, hej⟩ := h5 en hen
        exact ⟨c2, List.mem_cons_of_mem c hc2, j, hej⟩
      · intro en hen
        rcases List.mem_cons.mp hen with he | he
        · exact ⟨c, List.mem_cons_self c rest, i, m, he⟩
        · obtain ⟨c2, hc2, j, m2, hej⟩ := h6 en he
          exact ⟨c2, List.mem_cons_of_mem c hc2, j, m2, hej⟩

/-- A field accepted by either filter is a present, non-empty string. -/
theorem truthy_isSome (o : Option String) (h : truthy o = true) :
    o.isSome = true := by
  cases o with
  | none => cases h
  | some s => rfl

theorem truthy_some (s : String) : truthy (some s) = !(s == "") := rfl

theorem truthy_none : truthy none = false := rfl

theorem optBeq_some_some (a b : String) :
    ((some a : Option String) == some b) = (a == b) := rfl

theorem optBeq_none_some (b : String) :
    ((none : Option String) == some b) = false := rfl

/-! ## Counterexamples -/

/-- C1: counterexample.  Simplified variant, two valid contacts, both
transport calls succeed.  The trace is transport, sleep, persist,
transport, persist: the event immediately following the first transport
call's return is the inter-send delay, and the log on disk at that
moment (and throughout the delay, i.e. the first two events) is still
the initial empty log, not reflecting contact 0's outcome.  So if the
process is terminated immediately after contact 0's transport call
returns, the disk does not reflect contact 0's outcome, contrary to the
claim. -/
theorem C1_counterexample :
    ((Simple.sendBulkEmails envOk false okOut ts0 [cA, cB] emptyLog).1.events.map etag
      = [.t, .s, .p, .t, .p])
    ∧ diskAfter emptyLog
        ((Simple.sendBulkEmails envOk false okOut ts0 [cA, cB] emptyLog).1.events.take 2)
      = emptyLog
    ∧ (Simple.sendBulkEmails envOk false okOut ts0 [cA, cB] emptyLog).1.log.sent.length = 2 := by
  decide

/-- C2: counterexample.  The extended variant's filter consults only the
native `email` field, so of the two records the claim calls equivalent,
the native-scheme one passes the filter and the alternate-scheme one is
excluded — they do not pass the same filter. -/
theorem C2_counterexample :
    Ext.keep [] recNative = true
    ∧ Ext.keep [] recAlternate = false
    ∧ [recNative, recAlternate].filter (Ext.keep []) = [recNative] := by
  decide

/-- C3: counterexample.  Simplified variant, two valid contacts, the
first transport call fails.  The trace is transport, persist, transport,
persist: zero sleep events although M = 2 requires at least one, and the
two transport calls have no intervening delay. -/
theorem C3_counterexample :
    ((Simple.sendBulkEmails envOk false failFirst ts0 [cA, cB] emptyLog).1.events.map etag
      = [.t, .p, .t, .p])
    ∧ ((Simple.sendBulkEmails envOk false failFirst ts0 [cA, cB] emptyLog).1.events.filter isS).length = 0
    ∧ ((Simple.sendBulkEmails envOk false failFirst ts0 [cA, cB] emptyLog).1.events.filter isT).length = 2 := by
  decide

/-- C4: counterexample.  In the simplified variant, constructing the
transport with both credential variables missing raises nothing: the
construction succeeds and merely stores the absent credentials, contrary
to the claim that missing credentials raise a fatal configuration error
at construction time. -/
theorem C4_counterexample :
    Simple.createTransport envMissing
      = .ok { host := "smtp.gmail.com", port := 587, secure := false,
              authUser := none, authPass := none } := rfl

/-- C5: counterexample.  In the simplified variant, loading a malformed
existing log file propagates the parse error instead of warning and
falling back to the empty default. -/
theorem C5_counterexample :
    Simple.loadLog (some (.malformed "Unexpected token i in JSON"))
      = .error "Unexpected token i in JSON" := rfl

/-- C6: counterexample.  Simplified variant, one contact, successful
send: the single log entry appended by the run has no `status` key at
all (and no `error` key), contrary to the claim that every appended
entry carries a status equal to success or failed. -/
theorem C6_counterexample :
    ((Simple.sendBulkEmails envOk false okOut ts0 [cA] emptyLog).1.log.sent.map
        (fun e => e.status) = [none])
    ∧ ((Simple.sendBulkEmails envOk false okOut ts0 [cA] emptyLog).1.log.sent.map
        (fun e => e.error) = [none])
    ∧ (Simple.sendBulkEmails envOk false okOut ts0 [cA] emptyLog).1.log.failed = [] := by
  decide

/-- C7: counterexample.  Simplified variant, a log holding one entry
from a prior run and one new contact that succeeds: the run reports
successCount 2 (the cumulative length of the final `sent` list) although
exactly one contact succeeded during this run; no log file location is
part of the simplified summary line. -/
theorem C7_counterexample :
    (Simple.sendBulkEmails envOk false okOut ts0 [cA] priorLog).2.successCount = 2
    ∧ (Simple.sendBulkEmails envOk false okOut ts0 [cA] priorLog).1.log.sent.length
        - priorLog.sent.length = 1
    ∧ (Simple.sendBulkEmails envOk false okOut ts0 [cA] priorLog).2.successCount
        ≠ (Simple.sendBulkEmails envOk false okOut ts0 [cA] priorLog).1.log.sent.length
          - priorLog.sent.length := by
  decide

/-! ## Amended and confirmed claims -/

/-- C1 (amended): in both variants, the log reflecting contact K's
outcome is persisted before any event of contact K+1's iteration.  The
loop's trace on `c :: rest` is the block of `c` followed by the events
of `rest`, and every block contains the persist of the updated log.  In
the extended variant the persist immediately follows the attempt and
precedes the optional sleep, so the claim's original termination
property ("killed right after the transport call returns, the disk
already reflects K") holds there; in the simplified variant the
success-path persist comes after the inter-send sleep (the block ends
with the persist), which is exactly the window the counterexample
exhibits. -/
theorem C1_amended (env : Env) (cvEx : Bool) (outcome : Nat → Except String Unit)
    (ts : Nat → String) (c : RawContact) (rest : List RawContact) (i n : Nat)
    (log : SendLog) :
    ((Simple.loop env cvEx outcome ts n (c :: rest) i log).events
      = (Simple.step env cvEx outcome ts c i n log).events
        ++ (Simple.loop env cvEx outcome ts n rest (i + 1)
            (Simple.step env cvEx outcome ts c i n log).log).events)
    ∧ (∃ sl, (Simple.step env cvEx outcome ts c i n log).events
        = Event.transportCall (Simple.mailOpts env cvEx c)
            :: (sl ++ [Event.persist (Simple.step env cvEx outcome ts c i n log).log])
        ∧ (sl = [] ∨ sl = [Event.sleepMs (Simple.DELAY_MINUTES * 60000)]))
    ∧ ((Ext.loop env cvEx outcome ts n (c :: rest) i log).events
      = (Ext.step env cvEx outcome ts c i n log).events
        ++ (Ext.loop env cvEx outcome ts n rest (i + 1)
            (Ext.step env cvEx outcome ts c i n log).log).events)
    ∧ (∃ se sl, (Ext.step env cvEx outcome ts c i n log).events
        = se ++ (Event.persist (Ext.step env cvEx outcome ts c i n log).log :: sl)
        ∧ (se = [] ∨ ∃ opts, se = [Event.transportCall opts])
        ∧ (sl = [] ∨ sl = [Event.sleepMs Ext.DELAY_BETWEEN_EMAILS])) :=
  ⟨rfl, simple_step_shape env cvEx outcome ts c i n log, rfl,
    ext_step_shape env cvEx outcome ts c i n log⟩

/-- C2 (amended): in the simplified variant the claim holds as stated:
the native-scheme and alternate-scheme records resolve to the same
email/company/founder triple, receive the same filter verdict against
any already-sent list (and both pass against an empty log), and an
iteration of the dispatch loop treats them identically — same composed
message and transport options, same sent/failed log entry, same events.
In the extended variant the filter reads only the native `email` field,
so the alternate-scheme record is excluded (see the counterexample). -/
theorem C2_amended :
    (Simple.resolveEmail recNative = Simple.resolveEmail recAlternate
      ∧ Simple.resolveCompany recNative = Simple.resolveCompany recAlternate
      ∧ Simple.resolveFounder recNative = Simple.resolveFounder recAlternate)
    ∧ (∀ alreadySent, Simple.keep alreadySent recNative
        = Simple.keep alreadySent recAlternate)
    ∧ Simple.keep [] recNative = true
    ∧ (∀ env cvEx, Simple.mailOpts env cvEx recNative
        = Simple.mailOpts env cvEx recAlternate)
    ∧ (∀ t, Simple.sentEntry recNative t = Simple.sentEntry recAlternate t)
    ∧ (∀ t m, Simple.failedEntry recNative t m = Simple.failedEntry recAlternate t m)
    ∧ (∀ env cvEx outcome ts i n log,
        Simple.step env cvEx outcome ts recNative i n log
          = Simple.step env cvEx outcome ts recAlternate i n log) := by
  refine ⟨⟨rfl, rfl, rfl⟩, fun _ => rfl, by decide, fun _ _ => rfl, fun _ => rfl,
    fun _ _ => rfl, ?_⟩
  intro env cvEx outcome ts i n log
  unfold Simple.step
  cases outcome i <;> rfl

/-- C4 (amended): the extended variant's `createTransport` raises its
configuration error exactly when one of the two credentials is missing
or empty; the simplified variant's `createTransport` performs no check
and never raises at construction time (a missing credential surfaces
only when the transport is used); and in both variants the `--help`
flag selects the help action by argument inspection alone — no transport
is constructed on that path, so help works without credentials. -/
theorem C4_amended :
    (∀ env : Env, (Ext.createTransport env).isOk = (truthy env.user && truthy env.pass))
    ∧ (∀ env : Env, ∃ t, Simple.createTransport env = .ok t)
    ∧ (∀ args : List String, "--help" ∈ args →
        Simple.mainAction args = .helpAct ∧ Ext.mainAction args = .helpAct) := by
  refine ⟨?_, fun env => ⟨_, rfl⟩, ?_⟩
  · intro env
    unfold Ext.createTransport
    by_cases hu : truthy env.user <;> by_cases hp : truthy env.pass <;>
      simp [hu, hp, Except.isOk, Except.toBool]
  · intro args h
    have hc : args.contains "--help" = true := List.elem_eq_true_of_mem h
    constructor
    · unfold Simple.mainAction
      rw [hc]
      simp
    · have := parseArgs_help_of_mem args
        { toAddr := none, companyName := "", founderName := "", help := false } h
      simp [Ext.mainAction, Ext.parseArgs, this]

/-- C4 witness: with `--help` among the arguments, both entry points
choose the help action. -/
theorem C4_witness :
    ("--help" ∈ ["--help"])
    ∧ (Simple.mainAction ["--help"] = .helpAct ∧ Ext.mainAction ["--help"] = .helpAct) :=
  ⟨by decide, C4_amended.2.2 ["--help"] (by decide)⟩

/-- C5 (amended): the extended variant's `loadSentLog` returns the
persisted state for a well-formed file, the empty default when no file
exists, and warns and falls back to the empty default on a malformed
file; the simplified variant's `loadLog` handles the first two cases the
same way but propagates the parse error of a malformed file instead of
falling back. -/
theorem C5_amended :
    (Ext.loadSentLog none = (emptyLog, false))
    ∧ (∀ l, Ext.loadSentLog (some (.valid l)) = (l, false))
    ∧ (∀ m, Ext.loadSentLog (some (.malformed m)) = (emptyLog, true))
    ∧ (Simple.loadLog none = .ok emptyLog)
    ∧ (∀ l, Simple.loadLog (some (.valid l)) = .ok l)
    ∧ (∀ m, Simple.loadLog (some (.malformed m)) = .error m) :=
  ⟨rfl, fun _ => rfl, fun _ => rfl, rfl, fun _ => rfl, fun _ => rfl⟩

/-- C3 (amended): the extended variant paces exactly as claimed — over
its remaining contacts the loop issues exactly `length − 1` full-length
suspensions whether the attempts succeed or fail, and its
transport/sleep skeleton never has two adjacent transport calls.  The
simplified variant suspends only after a successful non-last attempt: a
failed attempt is followed by the next transport call with no
intervening delay (see the counterexample). -/
theorem C3_amended (env : Env) (cvEx : Bool) (outcome : Nat → Except String Unit)
    (ts : Nat → String) (n : Nat) (rest : List RawContact) (i : Nat)
    (log : SendLog) (hinv : i + rest.length = n) :
    (((Ext.loop env cvEx outcome ts n rest i log).events.filter isS).length
        = rest.length - 1)
    ∧ (noTwoTransports
        ((Ext.loop env cvEx outcome ts n rest i log).events.filter keyEv) = true)
    ∧ (∀ c j m lg, (Simple.step env cvEx outcome ts c j m lg).events.filter isS
        = if (outcome j).isOk = true ∧ j < m - 1
          then [Event.sleepMs (Simple.DELAY_MINUTES * 60000)] else []) := by
  refine ⟨ext_loop_sleep_count env cvEx outcome ts n rest i log hinv,
    ext_loop_paced env cvEx outcome ts n rest i log hinv, ?_⟩
  intro c j m lg
  cases ho : outcome j with
  | ok u =>
    by_cases hj : j < m - 1 <;>
      simp [Simple.step, ho, hj, isS, Except.isOk, Except.toBool]
  | error m2 =>
    simp [Simple.step, ho, isS, Except.isOk, Except.toBool]

/-- C3 witness: a concrete extended two-contact run whose first attempt
fails still issues exactly one full delay (M − 1 = 1) and never has two
adjacent transport calls in its transport/sleep skeleton. -/
theorem C3_witness :
    (((Ext.loop envOk false failFirst ts0 2 [cA, cB] 0 emptyLog).events.filter isS).length
        = [cA, cB].length - 1)
    ∧ noTwoTransports
        ((Ext.loop envOk false failFirst ts0 2 [cA, cB] 0 emptyLog).events.filter keyEv)
      = true :=
  ⟨(C3_amended envOk false failFirst ts0 2 [cA, cB] 0 emptyLog (by decide)).1,
   (C3_amended envOk false failFirst ts0 2 [cA, cB] 0 emptyLog (by decide)).2.1⟩

/-- C6 (amended): every entry appended by a run of the extended variant
has a present email, status success or failed, an ISO-8601 timestamp
(provided the external clock produces ISO-8601 strings, as
`Date.prototype.toISOString` does), and an error value that is null on
success entries and a message on failed entries.  The simplified
variant's entries carry no status key at all (see the counterexample). -/
theorem C6_amended (env : Env) (cvEx : Bool) (outcome : Nat → Except String Unit)
    (ts : Nat → String) (companies : List RawContact) (log0 : SendLog)
    (hts : ∀ j, isISO8601 (ts j) = true) :
    ∃ ns nf,
      (Ext.sendBulkEmails env cvEx outcome ts companies log0).1.log.sent
        = log0.sent ++ ns
      ∧ (Ext.sendBulkEmails env cvEx outcome ts companies log0).1.log.failed
        = log0.failed ++ nf
      ∧ (∀ en ∈ ns, en.email.isSome = true ∧ en.status = some "success"
          ∧ en.error = some none ∧ isISO8601 en.timestamp = true)
      ∧ (∀ en ∈ nf, en.email.isSome = true ∧ en.status = some "failed"
          ∧ (∃ m, en.error = some (some m)) ∧ isISO8601 en.timestamp = true) := by
  by_cases hemp : (companies.filter
      (Ext.keep (log0.sent.map fun en => en.email))).isEmpty
  · exact ⟨[], [], by simp [Ext.sendBulkEmails, hemp],
      by simp [Ext.sendBulkEmails, hemp], by simp, by simp⟩
  · have hrw : (Ext.sendBulkEmails env cvEx outcome ts companies log0).1
        = Ext.loop env cvEx outcome ts
            (companies.filter (Ext.keep (log0.sent.map fun en => en.email))).length
            (companies.filter (Ext.keep (log0.sent.map fun en => en.email))) 0 log0 := by
      simp [Ext.sendBulkEmails, hemp]
    have hmem : ∀ c ∈ companies.filter (Ext.keep (log0.sent.map fun en => en.email)),
        c.email.isSome = true := by
      intro c hc
      have hk := (List.mem_filter.mp hc).2
      simp only [Ext.keep, Bool.and_eq_true, Bool.not_eq_true'] at hk
      exact truthy_isSome _ hk.1.1.1
    obtain ⟨ns, nf, h1, h2, _, _, h5, h6, _⟩ :=
      ext_loop_shape env cvEx outcome ts
        (companies.filter (Ext.keep (log0.sent.map fun en => en.email))).length
        (companies.filter (Ext.keep (log0.sent.map fun en => en.email))) 0 log0
    refine ⟨ns, nf, by rw [hrw]; exact h1, by rw [hrw]; exact h2, ?_, ?_⟩
    · intro en hen
      obtain ⟨c, hc, j, hej⟩ := h5 en hen
      subst hej
      exact ⟨hmem c hc, rfl, rfl, hts j⟩
    · intro en hen
      obtain ⟨c, hc, j, m, hej⟩ := h6 en hen
      subst hej
      exact ⟨hmem c hc, rfl, ⟨m, rfl⟩, hts j⟩

/-- C6 witness: a concrete one-contact extended run under an ISO-8601
clock. -/
theorem C6_witness :
    (∀ j : Nat, isISO8601 (ts0 j) = true)
    ∧ ∃ ns nf,
      (Ext.sendBulkEmails envOk false okOut ts0 [cA] emptyLog).1.log.sent
        = emptyLog.sent ++ ns
      ∧ (Ext.sendBulkEmails envOk false okOut ts0 [cA] emptyLog).1.log.failed
        = emptyLog.failed ++ nf
      ∧ (∀ en ∈ ns, en.email.isSome = true ∧ en.status = some "success"
          ∧ en.error = some none ∧ isISO8601 en.timestamp = true)
      ∧ (∀ en ∈ nf, en.email.isSome = true ∧ en.status = some "failed"
          ∧ (∃ m, en.error = some (some m)) ∧ isISO8601 en.timestamp = true) :=
  have h : ∀ j : Nat, isISO8601 (ts0 j) = true := fun _ => by
    show isISO8601 "2026-01-13T12:00:00.000Z" = true
    decide
  ⟨h, C6_amended envOk false okOut ts0 [cA] emptyLog h⟩

/-- C7 (amended): the extended variant's summary reports per-run counts
— whenever a summary is reported, the final log's lists are exactly the
initial ones extended by `successCount` and `failCount` new entries —
together with the log file location.  The simplified variant's final
line reports the cumulative lengths of the final log's `sent` and
`failed` lists (prior runs included) and no log location (see the
counterexample). -/
theorem C7_amended (env : Env) (cvEx : Bool) (outcome : Nat → Except String Unit)
    (ts : Nat → String) (companies : List RawContact) (log0 : SendLog) :
    (∀ rep, (Ext.sendBulkEmails env cvEx outcome ts companies log0).2 = some rep →
        rep.logPath = Ext.LOG_FILE
        ∧ (Ext.sendBulkEmails env cvEx outcome ts companies log0).1.log.sent.length
            = log0.sent.length + rep.successCount
        ∧ (Ext.sendBulkEmails env cvEx outcome ts companies log0).1.log.failed.length
            = log0.failed.length + rep.failCount)
    ∧ ((Simple.sendBulkEmails env cvEx outcome ts companies log0).2
        = { successCount :=
              (Simple.sendBulkEmails env cvEx outcome ts companies log0).1.log.sent.length,
            failCount :=
              (Simple.sendBulkEmails env cvEx outcome ts companies log0).1.log.failed.length }) := by
  constructor
  · intro rep hrep
    by_cases hemp : (companies.filter
        (Ext.keep (log0.sent.map fun en => en.email))).isEmpty
    · exfalso
      simp [Ext.sendBulkEmails, hemp] at hrep
    · have hrw : (Ext.sendBulkEmails env cvEx outcome ts companies log0).1
          = Ext.loop env cvEx outcome ts
              (companies.filter (Ext.keep (log0.sent.map fun en => en.email))).length
              (companies.filter (Ext.keep (log0.sent.map fun en => en.email))) 0 log0 := by
        simp [Ext.sendBulkEmails, hemp]
      simp only [Ext.sendBulkEmails, hemp, Bool.false_eq_true, if_false,
        Option.some.injEq, Report.mk.injEq] at hrep
      subst hrep
      obtain ⟨ns, nf, h1, h2, h3, h4, _, _, _⟩ :=
        ext_loop_shape env cvEx outcome ts
          (companies.filter (Ext.keep (log0.sent.map fun en => en.email))).length
          (companies.filter (Ext.keep (log0.sent.map fun en => en.email))) 0 log0
      refine ⟨rfl, ?_, ?_⟩
      · rw [hrw, h1, List.length_append]; simp [h3]
      · rw [hrw, h2, List.length_append]; simp [h4]
  · show _ = _
    simp [Simple.sendBulkEmails]

/-- C7 witness: a concrete extended run over one new contact starting
from a one-entry log reports per-run counts 1/0 and the log location. -/
theorem C7_witness :
    ((Ext.sendBulkEmails envOk false okOut ts0 [cA] priorLog).2
        = some { successCount := 1, failCount := 0, logPath := Ext.LOG_FILE })
    ∧ (({ successCount := 1, failCount := 0, logPath := Ext.LOG_FILE } : Report).logPath
          = Ext.LOG_FILE
      ∧ (Ext.sendBulkEmails envOk false okOut ts0 [cA] priorLog).1.log.sent.length
          = priorLog.sent.length
            + ({ successCount := 1, failCount := 0, logPath := Ext.LOG_FILE } : Report).successCount
      ∧ (Ext.sendBulkEmails envOk false okOut ts0 [cA] priorLog).1.log.failed.length
          = priorLog.failed.length
            + ({ successCount := 1, failCount := 0, logPath := Ext.LOG_FILE } : Report).failCount) :=
  ⟨by decide,
   (C7_amended envOk false okOut ts0 [cA] priorLog).1
     { successCount := 1, failCount := 0, logPath := Ext.LOG_FILE } (by decide)⟩

/-- C8: confirmed.  The composer strips one leading case-insensitive
honorific token of the fixed set and trims, then selects the greeting by
the claimed priority chain; the three cited examples hold, and the
extended variant's composer computes the same greeting whenever the
founder name is present. -/
theorem C8_composer :
    (Simple.greeting (some "Dr. Jane Doe") (some "Acme") = "Dear Jane Doe")
    ∧ (Simple.greeting (some "N/A") (some "Acme") = "Dear Acme team")
    ∧ (Simple.greeting (some "N/A") (some "N/A") = "Dear Hiring Manager")
    ∧ (cleanName "Dr. Jane Doe" = "Jane Doe")
    ∧ (cleanName "mrs.   Smith " = "Smith")
    ∧ (cleanName "MME. Curie" = "Curie")
    ∧ (cleanName "Jane" = "Jane")
    ∧ (∀ f c, cleanName f ≠ "" → cleanName f ≠ "N/A" →
        Simple.greeting (some f) c = "Dear " ++ cleanName f)
    ∧ (∀ f c, (f = none ∨ ∃ s, f = some s ∧ (cleanName s = "" ∨ cleanName s = "N/A")) →
        truthy c = true → c ≠ some "N/A" →
        Simple.greeting f c = "Dear " ++ c.getD "" ++ " team")
    ∧ (∀ f c, (f = none ∨ ∃ s, f = some s ∧ (cleanName s = "" ∨ cleanName s = "N/A")) →
        (truthy c = false ∨ c = some "N/A") →
        Simple.greeting f c = "Dear Hiring Manager")
    ∧ (∀ f c, Simple.createEmail f c
        = { subject := "Internship Application - Full Stack Developer",
            body := Simple.greeting f c ++ Simple.bodyTail })
    ∧ (∀ f c, Ext.createPersonalizedEmail (some f) c
        = .ok (Simple.greeting (some f) c ++ Ext.extTail)) := by
  refine ⟨by decide, by decide, by decide, by decide, by decide, by decide, by decide,
    ?_, ?_, ?_, fun _ _ => rfl, fun _ _ => rfl⟩
  · intro f c h1 h2
    have h1b : (cleanName f == "") = false := beq_eq_false_iff_ne.mpr h1
    have h2b : (cleanName f == "N/A") = false := beq_eq_false_iff_ne.mpr h2
    simp [Simple.greeting, truthy_some, optBeq_some_some, h1b, h2b]
  · intro f c hf hc1 hc2
    have hc2b : (c == some "N/A") = false := by
      cases c with
      | none => rfl
      | some s =>
        have hs2 : s ≠ "N/A" := by
          intro h
          exact hc2 (by rw [h])
        rw [optBeq_some_some]
        exact beq_eq_false_iff_ne.mpr hs2
    rcases hf with rfl | ⟨s, rfl, hs⟩
    · simp [Simple.greeting, truthy_none, hc1, hc2b]
    · rcases hs with hs | hs
      · simp [Simple.greeting, truthy_some, hs, hc1, hc2b]
      · simp [Simple.greeting, truthy_some, optBeq_some_some, hs, hc1, hc2b]
  · intro f c hf hc
    have hcflat : (truthy c && !(c == some "N/A")) = false := by
      rcases hc with hc | rfl
      · rw [hc]; rfl
      · rfl
    rcases hf with rfl | ⟨s, rfl, hs⟩
    · simp [Simple.greeting, truthy_none, hcflat]
    · rcases hs with hs | hs
      · simp [Simple.greeting, truthy_some, hs, hcflat]
      · simp [Simple.greeting, truthy_some, optBeq_some_some, hs, hcflat]

/-- C8 witness: instantiation of the first-priority branch at a cleaned
honorific name. -/
theorem C8_witness :
    Simple.greeting (some "Mr. Bob") (some "Acme") = "Dear " ++ cleanName "Mr. Bob" :=
  C8_composer.2.2.2.2.2.2.2.1 "Mr. Bob" (some "Acme") (by decide) (by decide)

/-- C9: confirmed for both variants.  If an email already appears in the
loaded log's `sent` sequence, a run never issues a transport call
addressed to it, and the final `sent` sequence is the initial one
extended only by entries for other addresses. -/
theorem C9_idempotent_skip (env : Env) (cvEx : Bool)
    (outcome : Nat → Except String Unit) (ts : Nat → String)
    (companies : List RawContact) (log0 : SendLog) (e : Option String)
    (he : e ∈ log0.sent.map (fun en => en.email)) :
    ((∀ opts, Event.transportCall opts
        ∈ (Simple.sendBulkEmails env cvEx outcome ts companies log0).1.events →
        opts.toAddr ≠ e)
      ∧ ∃ ns, (Simple.sendBulkEmails env cvEx outcome ts companies log0).1.log.sent
          = log0.sent ++ ns ∧ ∀ en ∈ ns, en.email ≠ e)
    ∧ ((∀ opts, Event.transportCall opts
        ∈ (Ext.sendBulkEmails env cvEx outcome ts companies log0).1.events →
        opts.toAddr ≠ e)
      ∧ ∃ ns, (Ext.sendBulkEmails env cvEx outcome ts companies log0).1.log.sent
          = log0.sent ++ ns ∧ ∀ en ∈ ns, en.email ≠ e) := by
  have hcontains : (log0.sent.map (fun en => en.email)).contains e = true :=
    List.elem_eq_true_of_mem he
  have hne : ∀ em : Option String,
      ((log0.sent.map (fun en => en.email)).contains em) = false → em ≠ e := by
    intro em hcf heq
    subst heq
    rw [hcontains] at hcf
    cases hcf
  have hsim_mem : ∀ c ∈ companies.filter
      (Simple.keep (log0.sent.map fun en => en.email)),
      Simple.resolveEmail c ≠ e := by
    intro c hc
    have hk := (List.mem_filter.mp hc).2
    simp only [Simple.keep, Bool.and_eq_true, Bool.not_eq_true'] at hk
    exact hne _ hk.1.2
  have hext_mem : ∀ c ∈ companies.filter
      (Ext.keep (log0.sent.map fun en => en.email)),
      c.email ≠ e := by
    intro c hc
    have hk := (List.mem_filter.mp hc).2
    simp only [Ext.keep, Bool.and_eq_true, Bool.not_eq_true'] at hk
    exact hne _ hk.1.2
  obtain ⟨ns, hsent, hns, htrans⟩ := simple_loop_shape env cvEx outcome ts
      (companies.filter (Simple.keep (log0.sent.map fun en => en.email))).length
      (companies.filter (Simple.keep (log0.sent.map fun en => en.email))) 0 log0
  refine ⟨⟨?_, ns, hsent, ?_⟩, ?_⟩
  · intro opts hopts
    obtain ⟨c, hc, rfl⟩ := htrans opts hopts
    exact hsim_mem c hc
  · intro en hen
    obtain ⟨c, hc, j, rfl⟩ := hns en hen
    exact hsim_mem c hc
  · by_cases hemp : (companies.filter
        (Ext.keep (log0.sent.map fun en => en.email))).isEmpty
    · constructor
      · intro opts hopts
        have hev : (Ext.sendBulkEmails env cvEx outcome ts companies log0).1.events
            = [] := by
          simp [Ext.sendBulkEmails, hemp]
        rw [hev] at hopts
        cases hopts
      · refine ⟨[], ?_, by simp⟩
        simp [Ext.sendBulkEmails, hemp]
    · have hrw : (Ext.sendBulkEmails env cvEx outcome ts companies log0).1
          = Ext.loop env cvEx outcome ts
              (companies.filter (Ext.keep (log0.sent.map fun en => en.email))).length
              (companies.filter (Ext.keep (log0.sent.map fun en => en.email))) 0 log0 := by
        simp [Ext.sendBulkEmails, hemp]
      obtain ⟨ns2, nf2, h1, _, _, _, h5, _, h7⟩ := ext_loop_shape env cvEx outcome ts
          (companies.filter (Ext.keep (log0.sent.map fun en => en.email))).length
          (companies.filter (Ext.keep (log0.sent.map fun en => en.email))) 0 log0
      constructor
      · intro opts hopts
        rw [hrw] at hopts
        obtain ⟨c, hc, heq⟩ := h7 opts hopts
        rw [heq]
        exact hext_mem c hc
      · refine ⟨ns2, by rw [hrw]; exact h1, ?_⟩
        intro en hen
        obtain ⟨c, hc, j, rfl⟩ := h5 en hen
        exact hext_mem c hc

/-- C9 witness: with `old@x.com` already in the loaded log's sent
sequence and a contact list containing that address plus a fresh one,
neither variant's run calls the transport for it or appends a new sent
entry for it. -/
theorem C9_witness :
    ((some "old@x.com" : Option String) ∈ priorLog.sent.map (fun en => en.email))
    ∧ (((∀ opts, Event.transportCall opts
          ∈ (Simple.sendBulkEmails envOk false okOut ts0 [cOld, cA] priorLog).1.events →
          opts.toAddr ≠ (some "old@x.com" : Option String))
        ∧ ∃ ns, (Simple.sendBulkEmails envOk false okOut ts0 [cOld, cA] priorLog).1.log.sent
            = priorLog.sent ++ ns
          ∧ ∀ en ∈ ns, en.email ≠ (some "old@x.com" : Option String))
      ∧ ((∀ opts, Event.transportCall opts
          ∈ (Ext.sendBulkEmails envOk false okOut ts0 [cOld, cA] priorLog).1.events →
          opts.toAddr ≠ (some "old@x.com" : Option String))
        ∧ ∃ ns, (Ext.sendBulkEmails envOk false okOut ts0 [cOld, cA] priorLog).1.log.sent
            = priorLog.sent ++ ns
          ∧ ∀ en ∈ ns, en.email ≠ (some "old@x.com" : Option String))) :=
  ⟨by decide,
   C9_idempotent_skip envOk false okOut ts0 [cOld, cA] priorLog
     (some "old@x.com") (by decide)⟩

/-- C10: confirmed.  The simplified composer is total on an absent
founder name and falls back to the company-team or hiring-manager
greeting, while the extended composer dereferences `.replace` on
undefined and throws the TypeError (modelled by its V8 message) before
the transport is even constructed; the extended bulk iteration catches
it, emits no transport call, and records a failed entry carrying the
message. -/
theorem C10_undefined_founder (env : Env) (cvEx : Bool)
    (outcome : Nat → Except String Unit) (ts : Nat → String) (c : RawContact)
    (i n : Nat) (log : SendLog) (hf : c.founderName = none) :
    (∀ cn, Ext.createPersonalizedEmail none cn = .error Ext.undefinedReplaceMsg)
    ∧ (∀ cn, Simple.createEmail none cn
        = { subject := "Internship Application - Full Stack Developer",
            body := Simple.greeting none cn ++ Simple.bodyTail })
    ∧ (Simple.greeting none (some "Acme") = "Dear Acme team")
    ∧ (Simple.greeting none none = "Dear Hiring Manager")
    ∧ ((Ext.step env cvEx outcome ts c i n log).events.filter isT = [])
    ∧ ((Ext.step env cvEx outcome ts c i n log).log.failed
        = log.failed ++ [Ext.mkEntry c.email c.companyName (ts i) "failed"
            (some Ext.undefinedReplaceMsg)])
    ∧ ((Ext.step env cvEx outcome ts c i n log).log.sent = log.sent)
    ∧ (Ext.step env cvEx outcome ts c i n log).sc = 0
    ∧ (Ext.step env cvEx outcome ts c i n log).fc = 1 := by
  have hcomp : Ext.createPersonalizedEmail c.founderName c.companyName
      = .error Ext.undefinedReplaceMsg := by
    rw [hf]
    rfl
  have hfs : (("failed" : String) == "success") = false := by decide
  refine ⟨fun _ => rfl, fun _ => rfl, by decide, by decide, ?_, ?_, ?_, ?_, ?_⟩
  · by_cases hi : i < n - 1 <;>
      simp [Ext.step, hcomp, Ext.addToLog, Ext.sleepAfter, hi, isT]
  · simp [Ext.step, hcomp, Ext.addToLog, hfs]
  · simp [Ext.step, hcomp, Ext.addToLog, hfs]
  · simp [Ext.step, hcomp]
  · simp [Ext.step, hcomp]

/-- C10 witness: a concrete contact that passes the email filter but has
no founderName — the extended iteration emits no transport call and
records the TypeError message as a failed entry. -/
theorem C10_witness :
    ((Ext.step envOk false okOut ts0 cNoFounder 0 1 emptyLog).events.filter isT = [])
    ∧ ((Ext.step envOk false okOut ts0 cNoFounder 0 1 emptyLog).log.failed
        = emptyLog.failed ++ [Ext.mkEntry cNoFounder.email cNoFounder.companyName
            (ts0 0) "failed" (some Ext.undefinedReplaceMsg)]) :=
  ⟨(C10_undefined_founder envOk false okOut ts0 cNoFounder 0 1 emptyLog rfl).2.2.2.2.1,
   (C10_undefined_founder envOk false okOut ts0 cNoFounder 0 1 emptyLog rfl).2.2.2.2.2.1⟩

end EmailBot
